import Mathlib

/-!
Shallow embedding of the core of the GitPilot VS Code extension
(`src/gitExecutor.ts`, `src/aiEngine.ts`, `src/contextAnalyzer.ts`).

JavaScript strings are modelled as Lean `String`s; the handful of
JavaScript string primitives the source uses (`trim`, `startsWith`,
`includes`, `toLowerCase`, `split`) are re-implemented below over
`List Char` so that every definition is executable and decidable.
`execSync` / `execAsync` / `axios.post` are modelled as explicit oracles
passed in as parameters; each embedded entry point additionally reports
whether the oracle was consulted, which models "a subprocess was spawned"
(resp. "a network call was attempted").  A JavaScript `throw` is modelled
by an `Except`-style error value carrying the thrown message; JavaScript
template interpolation of an `Error` object (`` `${error}` ``) is modelled
by `jsErrorString`.
-/

/-- Prefix test on character lists (model of JS `String.startsWith`). -/
def isPrefixL : List Char → List Char → Bool
  | [], _ => true
  | _ :: _, [] => false
  | p :: ps, c :: cs => p == c && isPrefixL ps cs

/-- Infix (substring) test on character lists (model of JS `String.includes`). -/
def isInfixL (pat : List Char) : List Char → Bool
  | [] => pat.isEmpty
  | c :: cs => isPrefixL pat (c :: cs) || isInfixL pat cs

/-- JS `s.startsWith(pre)`. -/
def strStartsWith (s pre : String) : Bool := isPrefixL pre.toList s.toList

/-- JS `s.includes(pat)`. -/
def strIncludes (s pat : String) : Bool := isInfixL pat.toList s.toList

/-- JS `s.trim()`: drop whitespace from both ends. -/
def jsTrim (s : String) : String :=
  String.mk (((s.toList.dropWhile Char.isWhitespace).reverse.dropWhile
    Char.isWhitespace).reverse)

/-- JS `s.toLowerCase()` (ASCII fragment, all the source ever feeds it). -/
def jsLower (s : String) : String := String.mk (s.toList.map Char.toLower)

/-- Split a character list on a separator character; always non-empty,
mirroring JS `String.split` on a one-character separator. -/
def splitOnCharL (sep : Char) : List Char → List (List Char)
  | [] => [[]]
  | c :: cs =>
    if c == sep then [] :: splitOnCharL sep cs
    else
      match splitOnCharL sep cs with
      | [] => [[c]]
      | h :: t => (c :: h) :: t

/-- JS `s.split(sep)` for a one-character separator. -/
def jsSplitChar (sep : Char) (s : String) : List String :=
  (splitOnCharL sep s.toList).map String.mk

/-- JS string-or: `a || b` where `a` may be `undefined` (`none`) or an
empty (falsy) string. -/
def jsOrS (a : Option String) (b : String) : String :=
  match a with
  | none => b
  | some s => if s == "" then b else s

/-- JS integer-or: `a || b` where `a` may be `undefined` or `0` (falsy). -/
def jsOrI (a : Option Int) (b : Int) : Int :=
  match a with
  | none => b
  | some n => if n == 0 then b else n

/-- JS falsiness of an optional string (`!x`): `undefined` or `""`. -/
def jsFalsyS (a : Option String) : Bool :=
  match a with
  | none => true
  | some s => s == ""

/-- JS template interpolation of a thrown `Error` object: `` `${error}` ``
prints as `Error: <message>`. -/
def jsErrorString (msg : String) : String := "Error: " ++ msg

/- ## GitExecutor (src/gitExecutor.ts) -/

/-- `dangerousChars` from `cleanCommand`, in source order. -/
def dangerousChars : List String := [";", "&&", "||", "|", "\x60", "$", ">", "<"]

/-- The `destructiveCommands` table, in source (insertion) order. -/
def destructiveCommands : List (String × String) :=
  [("reset --hard", "This will discard all uncommitted changes"),
   ("clean -f", "This will delete untracked files permanently"),
   ("push --force", "This will overwrite remote history"),
   ("rebase", "This will rewrite commit history"),
   ("cherry-pick", "This may create conflicts"),
   ("merge --no-ff", "This will create a merge commit")]

/-- The trim-and-prefix normalization at the top of `cleanCommand`. -/
def normalizeCmd (command : String) : String :=
  let c := jsTrim command
  if strStartsWith c "git" then c else "git " ++ c

/-- `cleanCommand`: normalize, then throw on the first dangerous
metacharacter found (a JS `throw` is an `Except.error`). -/
def cleanCommand (command : String) : Except String String :=
  let c := normalizeCmd command
  match dangerousChars.find? (fun d => strIncludes c d) with
  | some d => .error ("Potentially dangerous character detected: " ++ d)
  | none => .ok c

/-- `checkDestructiveOperations`: push one warning per matching table
entry, scanning the table in order. -/
def checkDestructiveOperations (command : String) : List String :=
  destructiveCommands.foldl
    (fun ws p => if strIncludes (jsLower command) p.1 then ws ++ ["⚠️ " ++ p.2] else ws)
    []

/-- `isDestructiveCommand`: some key of the table occurs in the lowercased
command. -/
def isDestructiveCommand (command : String) : Bool :=
  (destructiveCommands.map Prod.fst).any (fun k => strIncludes (jsLower command) k)

/-- The `ExecutionResult` interface; `warnings` and `return_code` are
optional fields, absent (`none`) when the source omits them. -/
structure ExecutionResult where
  success : Bool
  output : String
  error : String
  executed : Bool
  warnings : Option (List String) := none
  return_code : Option Int := none
  deriving DecidableEq, Repr

/-- Successful `execAsync` resolution: captured stdout and stderr. -/
structure ExecOk where
  stdout : String
  stderr : String
  deriving DecidableEq, Repr

/-- Rejected `execAsync`: the relevant fields of the caught `error`
object, each possibly `undefined`. -/
structure ExecErr where
  stdout : Option String := none
  stderr : Option String := none
  message : Option String := none
  code : Option Int := none
  deriving DecidableEq, Repr

/-- Outcome of an `async` method: either the promise rejects with a thrown
message or it resolves to a result value. -/
inductive ExecOutcome where
  | thrown (msg : String)
  | returned (r : ExecutionResult)
  deriving DecidableEq, Repr

/-- Bool test for the `thrown` constructor. -/
def ExecOutcome.isThrown : ExecOutcome → Bool
  | .thrown _ => true
  | .returned _ => false

/-- `GitExecutor.execute`.  `oracle` models `execAsync` (keyed by the
command string actually passed to it); the second component of the result
records whether `execAsync` was invoked, i.e. whether a subprocess was
spawned. -/
def execute (oracle : String → Except ExecErr ExecOk) (command : String)
    (dryRun : Bool := false) (autoConfirm : Bool := false) :
    ExecOutcome × Bool :=
  if command == "" || !(strStartsWith (jsTrim command) "git") then
    (.returned { success := false, output := "", error := "Invalid Git command",
                 executed := false }, false)
  else
    match cleanCommand command with
    | .error msg => (.thrown msg, false)
    | .ok cleanCmd =>
      let warnings := checkDestructiveOperations cleanCmd
      if dryRun then
        (.returned { success := true, output := "Would execute: " ++ cleanCmd,
                     error := "", executed := false,
                     warnings := some warnings }, false)
      else
        match oracle cleanCmd with
        | .ok res =>
          (.returned { success := true, output := res.stdout,
                       error := jsOrS (some res.stderr) "",
                       executed := true, warnings := some warnings,
                       return_code := some 0 }, true)
        | .error e =>
          (.returned { success := false, output := jsOrS e.stdout "",
                       error := jsOrS e.stderr (jsOrS e.message "Command execution failed"),
                       executed := false, warnings := some warnings,
                       return_code := some (jsOrI e.code 1) }, true)

/-- `previewCommand`: `execute` with `dryRun` forced true. -/
def previewCommand (oracle : String → Except ExecErr ExecOk) (command : String) :
    ExecOutcome × Bool :=
  execute oracle command true

/-- A concrete benign `execAsync` oracle used for closed counterexamples. -/
def okOracle : String → Except ExecErr ExecOk := fun _ => .ok ⟨"", ""⟩

/- ## AIEngine (src/aiEngine.ts) -/

/-- The structured `AIResponse` triple. -/
structure AIResponse where
  command : Option String
  explanation : String
  warning : Option String
  deriving DecidableEq, Repr

/-- Remote-tracking status, as produced by `getRemoteStatus`.  The failure
shape `{has_remote:false}` leaves the other fields absent. -/
structure RemoteStatus where
  has_remote : Bool
  ahead : Option Int := none
  behind : Option Int := none
  up_to_date : Option Bool := none
  deriving DecidableEq, Repr

/-- The `ContextInfo` interface (all fields optional). -/
structure ContextInfo where
  branch : Option String := none
  is_dirty : Option Bool := none
  staged_files : Option Int := none
  unstaged_files : Option Int := none
  untracked_files : Option Int := none
  is_detached : Option Bool := none
  remote_status : Option RemoteStatus := none
  error : Option String := none
  deriving DecidableEq, Repr

/-- Provider tag of a registry entry. -/
inductive Provider where
  | gemini
  | groq
  deriving DecidableEq, Repr

/-- One row of `availableModels`. -/
structure ModelInfo where
  name : String
  provider : Provider
  model : String
  deriving DecidableEq, Repr

/-- The static `availableModels` registry, keyed "1".."4". -/
def availableModels (key : String) : Option ModelInfo :=
  if key == "1" then some ⟨"Gemini 2.0 Flash", .gemini, "gemini-2.0-flash"⟩
  else if key == "2" then some ⟨"Llama 3.1 8B Instant", .groq, "llama-3.1-8b-instant"⟩
  else if key == "3" then some ⟨"Llama 3.3 70B Versatile", .groq, "llama-3.3-70b-versatile"⟩
  else if key == "4" then some ⟨"DeepSeek R1 Distill Llama 70B", .groq, "deepseek-r1-distill-llama-70b"⟩
  else none

/-- `availableModels[modelChoice] || availableModels["1"]`. -/
def resolveModel (modelChoice : String) : ModelInfo :=
  (availableModels modelChoice).getD ⟨"Gemini 2.0 Flash", .gemini, "gemini-2.0-flash"⟩

/-- The two configured API keys of an `AIEngine` instance. -/
structure AIEngineKeys where
  geminiApiKey : Option String := none
  groqApiKey : Option String := none
  deriving DecidableEq, Repr

/-- The key an adapter consults for a given provider. -/
def keyFor (engine : AIEngineKeys) : Provider → Option String
  | .gemini => engine.geminiApiKey
  | .groq => engine.groqApiKey

/-- First match of the regex `/\x7b[^\x7d]*"command"[^\x7d]*\x7d/s`:
scanning start positions left to right, a match at an opening brace
succeeds iff a closing brace follows with no closing brace in between and
the literal `"command"` (quotes included) occurs between the braces. -/
def firstBraceMatch : List Char → Option (List Char)
  | [] => none
  | c :: cs =>
    if c == '\x7b' then
      let body := cs.takeWhile (fun x => !(x == '\x7d'))
      match cs.drop body.length with
      | '\x7d' :: _ =>
        if isInfixL "\"command\"".toList body then
          some ('\x7b' :: body ++ ['\x7d'])
        else firstBraceMatch cs
      | _ => firstBraceMatch cs
    else firstBraceMatch cs

/-- First match of the regex ``/\x60(git [^\x60]+)\x60/`` : scanning left
to right, at a backtick followed by `git ` the capture extends over a
non-empty run of non-backtick characters that must be closed by a
backtick. -/
def findBacktickGit : List Char → Option String
  | [] => none
  | c :: cs =>
    if c == '\x60' && isPrefixL "git ".toList cs then
      let body := (cs.drop 4).takeWhile (fun x => !(x == '\x60'))
      match body, (cs.drop 4).drop body.length with
      | _ :: _, '\x60' :: _ => some (String.mk ("git ".toList ++ body))
      | _, _ => findBacktickGit cs
    else findBacktickGit cs

/-- Mutable loop state of the line-oriented fallback in `parseAIResponse`. -/
structure ParseState where
  command : Option String
  explanation : String
  warning : Option String
  deriving DecidableEq, Repr

/-- The body of the `for (const line of lines)` loop in `parseAIResponse`,
as a fold step. -/
def parseLineStep (st : ParseState) (line : String) : ParseState :=
  let t := jsTrim line
  let st :=
    if st.command.isNone then
      if strStartsWith t "git " then { st with command := some t }
      else if strIncludes t "\x60git " then
        match findBacktickGit t.toList with
        | some m => { st with command := some m }
        | none => st
      else st
    else st
  if strStartsWith t "Warning:" || strStartsWith t "Note:" || strIncludes t "⚠️" then
    { st with warning := some t }
  else if strIncludes (jsLower t) "warning" && st.warning.isNone then
    { st with warning := some t }
  else if !(t == "") && st.command.isNone && !(strStartsWith t "\x60\x60\x60")
      && !(strStartsWith t "\x60") then
    if !(strIncludes t "git ") then
      { st with explanation := st.explanation ++ t ++ " " }
    else st
  else st

/-- `command.trim().replace(/^\x60|\x60$/g, '')`: strip one leading and
one trailing backtick from the trimmed command. -/
def stripEdgeBackticks (s : String) : String :=
  let l := (jsTrim s).toList
  let l := match l with
    | '\x60' :: t => t
    | _ => l
  let l := if l ≠ [] && l.getLast? == some '\x60' then l.dropLast else l
  String.mk l

/-- The post-loop fix-up of the extracted command. -/
def finalizeCommand (c : String) : String :=
  let c := stripEdgeBackticks c
  if strStartsWith c "git " then c else "git " ++ c

/-- The line-oriented text-parsing fallback of `parseAIResponse`. -/
def parseTextFallback (response : String) : AIResponse :=
  let st := (jsSplitChar '\n' response).foldl parseLineStep ⟨none, "", none⟩
  { command := st.command.map finalizeCommand,
    explanation := jsTrim st.explanation,
    warning := st.warning }

/-- `parseAIResponse`.  `jsonParse` models `JSON.parse` restricted to the
typed view the source assumes: `some r` when the text parses as a JSON
object (read off as an `AIResponse`), `none` when `JSON.parse` throws.
The enclosing `try/catch` of the source (whose `catch` returns
`warning:"Failed to parse AI response"`) is unreachable for string input,
since both `JSON.parse` call sites sit in their own `try/catch` and the
fallback loop cannot throw: no `Except` layer is needed here. -/
def parseAIResponse (jsonParse : String → Option AIResponse) (response : String) :
    AIResponse :=
  match firstBraceMatch response.toList with
  | some m =>
    match jsonParse (String.mk m) with
    | some r => r
    | none =>
      if strStartsWith (jsTrim response) "\x7b" then
        match jsonParse (jsTrim response) with
        | some r => r
        | none => parseTextFallback response
      else parseTextFallback response
  | none =>
    if strStartsWith (jsTrim response) "\x7b" then
      match jsonParse (jsTrim response) with
      | some r => r
      | none => parseTextFallback response
    else parseTextFallback response

/-- A `JSON.parse` oracle that always throws; used where the JSON paths
are not reached anyway. -/
def noJson : String → Option AIResponse := fun _ => none

/-- `formatContext` (defined in the source, computed but unused by
`buildPrompt`). -/
def formatContext (context : ContextInfo) : String :=
  match context.error with
  | some e => "Error: " ++ e
  | none =>
    let base :=
      "Branch: " ++ jsOrS context.branch "unknown" ++ "\n" ++
      "Dirty: " ++ toString (context.is_dirty.getD false) ++ "\n" ++
      "Staged files: " ++ toString (jsOrI context.staged_files 0) ++ "\n" ++
      "Unstaged files: " ++ toString (jsOrI context.unstaged_files 0) ++ "\n" ++
      "Untracked files: " ++ toString (jsOrI context.untracked_files 0)
    match context.remote_status with
    | some r =>
      if r.has_remote then
        base ++ "\n" ++ "Remote: " ++ toString (jsOrI r.ahead 0) ++ " ahead, " ++
          toString (jsOrI r.behind 0) ++ " behind"
      else base
    | none => base

/-- `JSON.stringify(context.remote_status || \x7b\x7d)`: fields in
insertion order, absent fields omitted. -/
def stringifyRemote : Option RemoteStatus → String
  | none => "\x7b\x7d"
  | some r =>
    let s := "\x7b\"has_remote\":" ++ toString r.has_remote
    let s := match r.ahead with
      | some a => s ++ ",\"ahead\":" ++ toString a
      | none => s
    let s := match r.behind with
      | some b => s ++ ",\"behind\":" ++ toString b
      | none => s
    let s := match r.up_to_date with
      | some u => s ++ ",\"up_to_date\":" ++ toString u
      | none => s
    s ++ "\x7d"

/-- `buildPrompt`: the template string of the source (the `formatContext`
call result is computed and discarded there, as here). -/
def buildPrompt (userInput : String) (context : ContextInfo) : String :=
  let _ := formatContext context
  "Based on the current Git repository state:\n" ++
  "- Branch: " ++ jsOrS context.branch "unknown" ++ "\n" ++
  "- Dirty: " ++ toString (context.is_dirty.getD false) ++ "\n" ++
  "- Staged files: " ++ toString (jsOrI context.staged_files 0) ++ "\n" ++
  "- Unstaged files: " ++ toString (jsOrI context.unstaged_files 0) ++ "\n" ++
  "- Detached HEAD: " ++ toString (context.is_detached.getD false) ++ "\n" ++
  "- Remote status: " ++ stringifyRemote context.remote_status ++ "\n\n" ++
  "User request: " ++ userInput ++ "\n\n" ++
  "Provide the most appropriate Git command considering the current context. Respond with a JSON object containing \x27command\x27, \x27explanation\x27, and \x27warning\x27 fields."

/-- One HTTP POST as the network oracle sees it. -/
structure NetRequest where
  url : String
  auth : String := ""
  model : String := ""
  body : String
  deriving DecidableEq, Repr

/-- `generateWithGemini`.  `net` models `axios.post`, returning either a
thrown message or the optional-chained text extraction
`data.candidates?.[0]?.content?.parts?.[0]?.text`; the Bool records
whether the network was touched. -/
def generateWithGemini (engine : AIEngineKeys)
    (net : NetRequest → Except String (Option String))
    (jsonParse : String → Option AIResponse)
    (userInput : String) (context : ContextInfo) (model : String) :
    Except String AIResponse × Bool :=
  if jsFalsyS engine.geminiApiKey then
    (.error "Gemini API key not configured", false)
  else
    let prompt := buildPrompt userInput context
    let url := "https://generativelanguage.googleapis.com/v1beta/models/" ++
      model ++ ":generateContent?key=" ++ engine.geminiApiKey.getD ""
    match net ⟨url, "", model, prompt⟩ with
    | .error e => (.error ("Gemini API error: " ++ jsErrorString e), true)
    | .ok t => (.ok (parseAIResponse jsonParse (jsOrS t "")), true)

/-- `generateWithGroq`; same shape over the chat-completions endpoint,
text extracted from `data.choices?.[0]?.message?.content`. -/
def generateWithGroq (engine : AIEngineKeys)
    (net : NetRequest → Except String (Option String))
    (jsonParse : String → Option AIResponse)
    (userInput : String) (context : ContextInfo) (model : String) :
    Except String AIResponse × Bool :=
  if jsFalsyS engine.groqApiKey then
    (.error "Groq API key not configured", false)
  else
    let prompt := buildPrompt userInput context
    match net ⟨"https://api.groq.com/openai/v1/chat/completions",
               "Bearer " ++ engine.groqApiKey.getD "", model, prompt⟩ with
    | .error e => (.error ("Groq API error: " ++ jsErrorString e), true)
    | .ok t => (.ok (parseAIResponse jsonParse (jsOrS t "")), true)

/-- `generateCommand`: resolve the model, dispatch on its provider tag,
and convert any thrown error into the non-throwing failure triple. -/
def generateCommand (engine : AIEngineKeys)
    (net : NetRequest → Except String (Option String))
    (jsonParse : String → Option AIResponse)
    (userInput : String) (context : ContextInfo) (modelChoice : String := "1") :
    AIResponse × Bool :=
  let modelInfo := resolveModel modelChoice
  let res :=
    match modelInfo.provider with
    | .gemini => generateWithGemini engine net jsonParse userInput context modelInfo.model
    | .groq => generateWithGroq engine net jsonParse userInput context modelInfo.model
  match res with
  | (.ok r, called) => (r, called)
  | (.error e, called) =>
    ({ command := none,
       explanation := "Failed to generate command: " ++ jsErrorString e,
       warning := some "Please try again or use manual Git commands" }, called)

/- ## ContextAnalyzer (src/contextAnalyzer.ts) -/

/-- The counting convention of the snapshot:
`execSync(...).toString().trim().split(\x27\n\x27).length - 1`. -/
def fileCount (out : String) : Nat :=
  (jsSplitChar '\n' (jsTrim out)).length - 1

/-- Modelled from the spec: the count the spec describes for the file and
stash fields, "non-empty lines in command output, else 0".  Kept separate
from `fileCount` (which is the code) so the two can be compared. -/
def specNonEmptyLineCount (out : String) : Nat :=
  ((jsSplitChar '\n' out).filter (fun l => !(l == ""))).length

/-- Last-commit metadata; the source returns `\x7b\x7d` (here `none`) when
any step of its extraction throws. -/
structure CommitInfo where
  sha : String
  message : String
  author : String
  date : String
  deriving DecidableEq, Repr

/-- The full snapshot object of `analyzeContext` on success. -/
structure ContextSnapshot where
  branch : String
  is_dirty : Bool
  staged_files : Nat
  unstaged_files : Nat
  untracked_files : Nat
  is_detached : Bool
  remote_status : RemoteStatus
  last_commit : Option CommitInfo
  stash_count : Nat
  deriving DecidableEq, Repr

/-- Result of `analyzeContext`: either the snapshot or the error-only
object. -/
inductive AnalyzeResult where
  | ok (s : ContextSnapshot)
  | failed (error : String)
  deriving DecidableEq, Repr

/-- `isGitRepo`: the plain status query succeeds. -/
def isGitRepo (run : String → Except String String) : Bool :=
  match run "git status" with
  | .ok _ => true
  | .error _ => false

/-- `getCurrentBranch`: its own try/catch, falling back to "unknown" both
on a thrown query and on empty output. -/
def getCurrentBranch (run : String → Except String String) : String :=
  match run "git rev-parse --abbrev-ref HEAD" with
  | .error _ => "unknown"
  | .ok out =>
    let b := jsTrim out
    if b == "" then "unknown" else b

/-- Value of a digit run. -/
def digitsVal (ds : List Char) : Nat :=
  ds.foldl (fun n c => n * 10 + (c.toNat - 48)) 0

/-- First match of a regex of the shape `lit1(\d+)lit2` (as in
`/local out of date by (\d+) commit/`): scanning start positions left to
right, the literal prefix, then a maximal non-empty digit run, then the
literal suffix. -/
def findNumBetween (lit1 lit2 : List Char) : List Char → Option Nat
  | [] => none
  | c :: cs =>
    if isPrefixL lit1 (c :: cs) then
      let rest := (c :: cs).drop lit1.length
      let ds := rest.takeWhile Char.isDigit
      if !ds.isEmpty && isPrefixL lit2 (rest.drop ds.length) then
        some (digitsVal ds)
      else findNumBetween lit1 lit2 cs
    else findNumBetween lit1 lit2 cs

/-- `getRemoteStatus`: its own try/catch; any throw yields
`\x7bhas_remote:false\x7d`. -/
def getRemoteStatus (run : String → Except String String) : RemoteStatus :=
  match run "git remote show origin" with
  | .error _ => { has_remote := false }
  | .ok origin =>
    let ahead := findNumBetween "local out of date by ".toList " commit".toList
      origin.toList
    let behind := findNumBetween "branches out of date by ".toList " commit".toList
      origin.toList
    { has_remote := true,
      ahead := some (ahead.getD 0 : Nat),
      behind := some (behind.getD 0 : Nat),
      up_to_date := some (ahead.isNone && behind.isNone) }

/-- `getLastCommitInfo`: its own try/catch.  A missing `|` field makes the
source call `.trim()` on `undefined` (a throw), and an unparsable date
makes `toISOString` throw; both land in the catch returning `\x7b\x7d`
(`none` here).  `dateISO` models `new Date(s).toISOString()`. -/
def getLastCommitInfo (run : String → Except String String)
    (dateISO : String → Option String) : Option CommitInfo :=
  match run "git log -1 --pretty=format:\"%h | %s | %an | %ci\"" with
  | .error _ => none
  | .ok out =>
    match jsSplitChar '|' out with
    | p0 :: p1 :: p2 :: p3 :: _ =>
      match dateISO (jsTrim p3) with
      | some d => some ⟨jsTrim p0, jsTrim p1, jsTrim p2, d⟩
      | none => none
    | _ => none

/-- `analyzeContext`.  The six direct `execSync` calls sit inside one
blanket try/catch: the first one that throws aborts the snapshot with the
error-only object.  `getCurrentBranch`, `getRemoteStatus` and
`getLastCommitInfo` carry their own internal catches and never throw. -/
def analyzeContext (run : String → Except String String)
    (dateISO : String → Option String) : AnalyzeResult :=
  if !isGitRepo run then .failed "Not a Git repository"
  else
    let branch := getCurrentBranch run
    match run "git status --porcelain" with
    | .error e => .failed ("Failed to analyze context: " ++ jsErrorString e)
    | .ok statusOut =>
    match run "git diff --cached --name-only" with
    | .error e => .failed ("Failed to analyze context: " ++ jsErrorString e)
    | .ok stagedOut =>
    match run "git diff --name-only" with
    | .error e => .failed ("Failed to analyze context: " ++ jsErrorString e)
    | .ok unstagedOut =>
    match run "git ls-files --others --exclude-standard" with
    | .error e => .failed ("Failed to analyze context: " ++ jsErrorString e)
    | .ok untrackedOut =>
    match run "git symbolic-ref -q HEAD" with
    | .error e => .failed ("Failed to analyze context: " ++ jsErrorString e)
    | .ok symOut =>
    let remoteStatus := getRemoteStatus run
    let lastCommit := getLastCommitInfo run dateISO
    match run "git stash list" with
    | .error e => .failed ("Failed to analyze context: " ++ jsErrorString e)
    | .ok stashOut =>
      .ok { branch := branch,
            is_dirty := !(jsTrim statusOut == ""),
            staged_files := fileCount stagedOut,
            unstaged_files := fileCount unstagedOut,
            untracked_files := fileCount untrackedOut,
            is_detached := !(jsTrim symOut == ""),
            remote_status := remoteStatus,
            last_commit := lastCommit,
            stash_count := fileCount stashOut }

/-- Network oracle that rejects every request; used for closed instances
where the network must not be reached. -/
def noNet : NetRequest → Except String (Option String) := fun _ => .error "no network"

/-- `execSync` oracle failing exactly on the porcelain status query. -/
def cex6run : String → Except String String := fun q =>
  if q == "git status --porcelain" then .error "boom" else .ok ""

/-- `execSync` oracle on which exactly the seven direct queries succeed
(with empty output) and every internally-guarded query fails. -/
def c6wRun : String → Except String String := fun q =>
  if q == "git status" || q == "git status --porcelain"
      || q == "git diff --cached --name-only" || q == "git diff --name-only"
      || q == "git ls-files --others --exclude-standard"
      || q == "git symbolic-ref -q HEAD" || q == "git stash list" then
    .ok ""
  else .error "query failed"

/-- `execSync` oracle for the off-by-one counting scenario: one staged
file, everything else clean. -/
def c7run : String → Except String String := fun q =>
  if q == "git diff --cached --name-only" then .ok "file.txt" else .ok ""

/- ## Helper lemmas -/

theorem foldl_push_eq_filter_map {α β : Type} (q : α → Bool) (w : α → β)
    (l : List α) (acc : List β) :
    l.foldl (fun ws p => if q p then ws ++ [w p] else ws) acc
      = acc ++ (l.filter q).map w := by
  induction l generalizing acc with
  | nil => simp
  | cons h t ih =>
    by_cases hq : q h <;> simp [List.foldl_cons, List.filter_cons, hq, ih]

theorem firstBraceMatch_eq_none_of_no_brace (l : List Char)
    (h : l.contains '\x7b' = false) : firstBraceMatch l = none := by
  induction l with
  | nil => rfl
  | cons c cs ih =>
    simp only [List.contains_cons, Bool.or_eq_false_iff] at h
    have hc : (c == '\x7b') = false := by
      cases hcc : c == '\x7b'
      · rfl
      · rw [beq_iff_eq] at hcc
        subst hcc
        simp at h
    simp only [firstBraceMatch, hc, Bool.false_eq_true, if_false]
    exact ih h.2

theorem mem_toList_of_mem_jsTrim (s : String) (c : Char)
    (h : c ∈ (jsTrim s).toList) : c ∈ s.toList := by
  simp only [jsTrim] at h
  have h1 : c ∈ (s.toList.dropWhile Char.isWhitespace).reverse.dropWhile Char.isWhitespace := by
    simpa using h
  have h2 := (List.dropWhile_sublist (p := Char.isWhitespace)
    (l := (s.toList.dropWhile Char.isWhitespace).reverse)).mem h1
  have h3 : c ∈ s.toList.dropWhile Char.isWhitespace := by simpa using h2
  exact (List.dropWhile_sublist (p := Char.isWhitespace) (l := s.toList)).mem h3

theorem strStartsWith_eq (s pre : String) :
    strStartsWith s pre = isPrefixL pre.toList s.toList := rfl

theorem not_startsWith_brace_of_no_brace (s : String)
    (h : s.toList.contains '\x7b' = false) :
    strStartsWith (jsTrim s) "\x7b" = false := by
  have hnot : ('\x7b' : Char) ∉ (jsTrim s).toList := by
    intro hm
    have hmem := mem_toList_of_mem_jsTrim s _ hm
    simp at h
    exact h hmem
  rw [strStartsWith_eq]
  cases ht : (jsTrim s).toList with
  | nil => rfl
  | cons c cs =>
    rw [ht] at hnot
    have hc : ('\x7b' == c) = false := by
      cases hcc : ('\x7b' : Char) == c
      · rfl
      · rw [beq_iff_eq] at hcc
        exact absurd (hcc ▸ List.mem_cons_self c cs) hnot
    show isPrefixL ['\x7b'] (c :: cs) = false
    simp [isPrefixL, hc]

/- ## Claim theorems -/

/-- C10: `execute` ignores its `autoConfirm` parameter entirely: for every
oracle, command, dry-run flag and both values of `autoConfirm`, the
outcome (result or thrown fault, and whether a subprocess was spawned) is
identical, so no confirmation is enforced inside the executor. -/
theorem c10_autoConfirm_unused (oracle : String → Except ExecErr ExecOk)
    (command : String) (dryRun a b : Bool) :
    execute oracle command dryRun a = execute oracle command dryRun b := rfl

/-- C2: `isDestructiveCommand c` is true exactly when some entry of the
fixed six-row `destructiveCommands` table has its key contained in the
lowercased command, and `checkDestructiveOperations c` is exactly one
glyph-prefixed warning per matching row, in table order. -/
theorem c2_destructive_table (c : String) :
    (isDestructiveCommand c = true ↔
      ∃ p ∈ destructiveCommands, strIncludes (jsLower c) p.1 = true)
    ∧ checkDestructiveOperations c =
        (destructiveCommands.filter (fun p => strIncludes (jsLower c) p.1)).map
          (fun p => "⚠️ " ++ p.2) := by
  constructor
  · simp only [isDestructiveCommand, List.any_eq_true, List.mem_map]
    constructor
    · rintro ⟨k, ⟨p, hp, rfl⟩, hk⟩
      exact ⟨p, hp, hk⟩
    · rintro ⟨p, hp, hk⟩
      exact ⟨p.1, ⟨p, hp, rfl⟩, hk⟩
  · simpa using foldl_push_eq_filter_map
      (fun p => strIncludes (jsLower c) p.1) (fun p => "⚠️ " ++ p.2)
      destructiveCommands []

/-- C1 (counterexample): the command `";"` contains the forbidden
metacharacter `;`, yet `execute` does not raise the injection fault — the
git-prefix guard fires first and the rejection comes back as an ordinary
result value. -/
theorem c1_counterexample :
    strIncludes ";" ";" = true
    ∧ execute okOracle ";" false false =
        (.returned { success := false, output := "", error := "Invalid Git command",
                     executed := false }, false)
    ∧ (execute okOracle ";" false false).1.isThrown = false := by
  refine ⟨rfl, rfl, rfl⟩

/-- C4 (counterexample): `execute "status"` is rejected by the git-prefix
guard before the auto-prefixing `cleanCommand` can run, so it does not
behave like `execute "git status"`. -/
theorem c4_counterexample :
    execute okOracle "status" true false ≠ execute okOracle "git status" true false
    ∧ execute okOracle "status" true false =
        (.returned { success := false, output := "", error := "Invalid Git command",
                     executed := false }, false) := by
  refine ⟨by decide, rfl⟩

/-- C5 (counterexample): on the unparsable text `"hello"` every parsing
path fails, yet `parseAIResponse` returns `warning = null` (the value
comes from the fallback loop), not `"Failed to parse AI response"`. -/
theorem c5_counterexample :
    parseAIResponse noJson "hello" =
      { command := none, explanation := "hello", warning := none }
    ∧ (parseAIResponse noJson "hello").warning ≠ some "Failed to parse AI response" := by
  refine ⟨rfl, by decide⟩

/-- C9 (counterexample): with two `Warning:` lines, the second overwrites
the first — the warning kept is the last matching line, not the first. -/
theorem c9_counterexample :
    parseAIResponse noJson "Warning: a\nWarning: b" =
      { command := none, explanation := "", warning := some "Warning: b" }
    ∧ (parseAIResponse noJson "Warning: a\nWarning: b").warning ≠ some "Warning: a" := by
  refine ⟨rfl, by decide⟩

/-- C6 (counterexample): a failure of the single dirty-flag query
(`git status --porcelain`), with every other query succeeding, aborts the
whole snapshot through the blanket catch: `analyzeContext` returns the
error-only object and no other field is computed. -/
theorem c6_counterexample :
    cex6run "git status" = .ok ""
    ∧ cex6run "git status --porcelain" = .error "boom"
    ∧ cex6run "git rev-parse --abbrev-ref HEAD" = .ok ""
    ∧ analyzeContext cex6run (fun _ => none) =
        .failed "Failed to analyze context: Error: boom" := by
  refine ⟨rfl, rfl, rfl, rfl⟩

/-- C1 (amended): restricted to commands whose trimmed form passes the
git-prefix guard, a forbidden metacharacter makes `execute` raise the
injection fault as an exception (the message names the first matching
metacharacter) without spawning a subprocess; moreover no command
containing a forbidden metacharacter ever spawns a subprocess, whichever
guard fires. -/
theorem c1_amended (oracle : String → Except ExecErr ExecOk) (c d : String)
    (dryRun ac : Bool)
    (hgit : strStartsWith (jsTrim c) "git" = true)
    (hfind : dangerousChars.find? (fun x => strIncludes (jsTrim c) x) = some d) :
    (execute oracle c dryRun ac).1 =
        .thrown ("Potentially dangerous character detected: " ++ d)
    ∧ (execute oracle c dryRun ac).2 = false
    ∧ ∀ (oracle2 : String → Except ExecErr ExecOk) (c2 d2 : String) (dr2 ac2 : Bool),
        dangerousChars.find? (fun x => strIncludes (jsTrim c2) x) = some d2 →
        (execute oracle2 c2 dr2 ac2).2 = false := by
  have hne : (c == "") = false := by
    cases hc : c == ""
    · rfl
    · rw [beq_iff_eq] at hc
      subst hc
      exact absurd hgit (by decide)
  refine ⟨?_, ?_, ?_⟩
  · simp [execute, hne, hgit, cleanCommand, normalizeCmd, hfind]
  · simp [execute, hne, hgit, cleanCommand, normalizeCmd, hfind]
  · intro oracle2 c2 d2 dr2 ac2 hfind2
    cases hguard : ((c2 == "") || !(strStartsWith (jsTrim c2) "git"))
    · have hgit2 : strStartsWith (jsTrim c2) "git" = true := by
        rcases Bool.or_eq_false_iff.mp hguard with ⟨-, h2⟩
        simpa using h2
      have hclean : cleanCommand c2 =
          .error ("Potentially dangerous character detected: " ++ d2) := by
        simp [cleanCommand, normalizeCmd, hgit2, hfind2]
      simp [execute, hguard, hclean]
    · simp [execute, hguard]

/-- C1 (witness for the amended theorem). -/
theorem c1_witness :
    strStartsWith (jsTrim "git log; rm") "git" = true
    ∧ dangerousChars.find? (fun x => strIncludes (jsTrim "git log; rm") x) = some ";"
    ∧ (execute okOracle "git log; rm" false false).1 =
        .thrown "Potentially dangerous character detected: ;"
    ∧ (execute okOracle "git log; rm" false false).2 = false := by
  refine ⟨rfl, rfl, ?_, ?_⟩
  · exact (c1_amended okOracle "git log; rm" ";" false false rfl rfl).1
  · exact (c1_amended okOracle "git log; rm" ";" false false rfl rfl).2.1

/-- C3: for a well-formed, non-injected command, a dry run spawns nothing
and returns `success = true`, `executed = false`, output
`"Would execute: "` followed by the normalized command, with the safety
warnings attached; and `executed = false` on every result a dry run
returns, whatever the command. -/
theorem c3_dry_run (oracle : String → Except ExecErr ExecOk) (c : String) (ac : Bool)
    (hgit : strStartsWith (jsTrim c) "git" = true)
    (hsafe : dangerousChars.find? (fun x => strIncludes (jsTrim c) x) = none) :
    execute oracle c true ac =
      (.returned { success := true, output := "Would execute: " ++ jsTrim c,
                   error := "", executed := false,
                   warnings := some (checkDestructiveOperations (jsTrim c)) }, false)
    ∧ ∀ (oracle2 : String → Except ExecErr ExecOk) (c2 : String) (ac2 : Bool)
        (r : ExecutionResult),
        (execute oracle2 c2 true ac2).1 = .returned r → r.executed = false := by
  have hne : (c == "") = false := by
    cases hc : c == ""
    · rfl
    · rw [beq_iff_eq] at hc
      subst hc
      exact absurd hgit (by decide)
  refine ⟨?_, ?_⟩
  · simp [execute, hne, hgit, cleanCommand, normalizeCmd, hsafe]
  · intro oracle2 c2 ac2 r h
    cases hguard : ((c2 == "") || !(strStartsWith (jsTrim c2) "git"))
    · cases hclean : cleanCommand c2 with
      | error msg => simp [execute, hguard, hclean] at h
      | ok cc =>
        simp [execute, hguard, hclean] at h
        rw [← h]
    · simp [execute, hguard] at h
      rw [← h]

/-- C3 (witness). -/
theorem c3_witness :
    strStartsWith (jsTrim "git status") "git" = true
    ∧ dangerousChars.find? (fun x => strIncludes (jsTrim "git status") x) = none
    ∧ execute okOracle "git status" true false =
        (.returned { success := true, output := "Would execute: git status",
                     error := "", executed := false, warnings := some [] }, false) :=
  ⟨rfl, rfl, (c3_dry_run okOracle "git status" false rfl rfl).1⟩

/-- C4 (amended): a command whose trimmed form does not start with `git`
is rejected outright by `execute` with the invalid-command result and
never reaches `cleanCommand`, whose auto-prefixing is therefore dead code
from `execute`; `cleanCommand` itself does auto-prefix such commands. -/
theorem c4_amended (oracle : String → Except ExecErr ExecOk) (c : String)
    (dryRun ac : Bool)
    (h : strStartsWith (jsTrim c) "git" = false) :
    execute oracle c dryRun ac =
      (.returned { success := false, output := "", error := "Invalid Git command",
                   executed := false }, false)
    ∧ ∀ c2 : String, strStartsWith (jsTrim c2) "git" = false →
        dangerousChars.find? (fun x => strIncludes ("git " ++ jsTrim c2) x) = none →
        cleanCommand c2 = .ok ("git " ++ jsTrim c2) := by
  refine ⟨?_, ?_⟩
  · simp [execute, h]
  · intro c2 h2 hf
    simp [cleanCommand, normalizeCmd, h2, hf]

/-- C4 (witness for the amended theorem). -/
theorem c4_witness :
    strStartsWith (jsTrim "status") "git" = false
    ∧ execute okOracle "status" false false =
        (.returned { success := false, output := "", error := "Invalid Git command",
                     executed := false }, false)
    ∧ cleanCommand "status" = .ok "git status" :=
  ⟨rfl, (c4_amended okOracle "status" false false rfl).1,
    (c4_amended okOracle "status" false false rfl).2 "status" rfl rfl⟩

/-- C5 (amended): whenever every parsing path fails — if the regex finds
a JSON-object-shaped candidate then `JSON.parse` throws on it, and if the
whole-text attempt is reached (trimmed text starting with a brace) then
`JSON.parse` throws on that too — `parseAIResponse` returns exactly the
line-oriented fallback result, whose warning comes from the heuristic
loop (the catch branch that would tag `"Failed to parse AI response"`
never fires). -/
theorem c5_amended (jsonParse : String → Option AIResponse) (response : String)
    (h1 : ∀ m, firstBraceMatch response.toList = some m →
      jsonParse (String.mk m) = none)
    (h2 : strStartsWith (jsTrim response) "\x7b" = true →
      jsonParse (jsTrim response) = none) :
    parseAIResponse jsonParse response = parseTextFallback response := by
  unfold parseAIResponse
  cases hb : firstBraceMatch response.toList with
  | none =>
    cases hs : strStartsWith (jsTrim response) "\x7b"
    · simp [hb, hs]
    · simp [hb, hs, h2 hs]
  | some m =>
    have hm : jsonParse (String.mk m) = none := h1 m hb
    cases hs : strStartsWith (jsTrim response) "\x7b"
    · simp [hb, hm, hs]
    · simp [hb, hm, hs, h2 hs]

/-- C5 (witness for the amended theorem): a brace-containing response on
which both `JSON.parse` attempts fail (the regex does find the candidate
object here). -/
theorem c5_witness :
    firstBraceMatch ("\x7b\"command\": oops\x7d" : String).toList =
      some ("\x7b\"command\": oops\x7d" : String).toList
    ∧ strStartsWith (jsTrim "\x7b\"command\": oops\x7d") "\x7b" = true
    ∧ noJson "\x7b\"command\": oops\x7d" = none
    ∧ parseAIResponse noJson "\x7b\"command\": oops\x7d" =
        parseTextFallback "\x7b\"command\": oops\x7d"
    ∧ parseTextFallback "\x7b\"command\": oops\x7d" =
        { command := none, explanation := "\x7b\"command\": oops\x7d",
          warning := none } :=
  ⟨rfl, rfl, rfl,
    c5_amended noJson "\x7b\"command\": oops\x7d" (fun _ _ => rfl) (fun _ => rfl),
    rfl⟩

/-- C9 (amended): every line whose trimmed form starts with `Warning:` or
`Note:` or contains the warning glyph overwrites the warning with itself —
so among such lines the last one wins, later lines replacing earlier
ones (only the secondary lowercase-`warning` branch is first-wins). -/
theorem c9_amended (st : ParseState) (line : String)
    (h : (strStartsWith (jsTrim line) "Warning:"
          || strStartsWith (jsTrim line) "Note:"
          || strIncludes (jsTrim line) "⚠️") = true) :
    (parseLineStep st line).warning = some (jsTrim line) := by
  simp [parseLineStep, h]

/-- C9 (witness for the amended theorem): the step overwrites an already
set warning. -/
theorem c9_witness :
    (strStartsWith (jsTrim "Warning: be careful") "Warning:"
      || strStartsWith (jsTrim "Warning: be careful") "Note:"
      || strIncludes (jsTrim "Warning: be careful") "⚠️") = true
    ∧ (parseLineStep ⟨none, "", some "Warning: old"⟩ "Warning: be careful").warning
        = some "Warning: be careful" :=
  ⟨rfl, c9_amended ⟨none, "", some "Warning: old"⟩ "Warning: be careful" rfl⟩

/-- C6 (amended): only the branch, remote-status and last-commit queries
are independently guarded.  Whenever the six direct `execSync` queries
(dirty flag, three file counts, detached flag, stash count) all succeed,
`analyzeContext` produces the full snapshot regardless of whether the
three guarded queries fail — their failures degrade to `"unknown"`,
`has_remote := false` and an empty commit object; a failure of any direct
query instead aborts the snapshot through the blanket catch (see the C6
counterexample). -/
theorem c6_amended (run : String → Except String String)
    (dateISO : String → Option String) (s0 s1 s2 s3 s4 s5 s6 : String)
    (h0 : run "git status" = .ok s0)
    (h1 : run "git status --porcelain" = .ok s1)
    (h2 : run "git diff --cached --name-only" = .ok s2)
    (h3 : run "git diff --name-only" = .ok s3)
    (h4 : run "git ls-files --others --exclude-standard" = .ok s4)
    (h5 : run "git symbolic-ref -q HEAD" = .ok s5)
    (h6 : run "git stash list" = .ok s6) :
    analyzeContext run dateISO =
      .ok { branch := getCurrentBranch run,
            is_dirty := !(jsTrim s1 == ""),
            staged_files := fileCount s2,
            unstaged_files := fileCount s3,
            untracked_files := fileCount s4,
            is_detached := !(jsTrim s5 == ""),
            remote_status := getRemoteStatus run,
            last_commit := getLastCommitInfo run dateISO,
            stash_count := fileCount s6 } := by
  simp [analyzeContext, isGitRepo, h0, h1, h2, h3, h4, h5, h6]

/-- C6 (witness for the amended theorem): all three guarded queries fail,
yet the snapshot is produced with their fallback values. -/
theorem c6_witness :
    c6wRun "git rev-parse --abbrev-ref HEAD" = .error "query failed"
    ∧ c6wRun "git remote show origin" = .error "query failed"
    ∧ c6wRun "git log -1 --pretty=format:\"%h | %s | %an | %ci\"" = .error "query failed"
    ∧ analyzeContext c6wRun (fun _ => none) =
        .ok { branch := "unknown", is_dirty := false, staged_files := 0,
              unstaged_files := 0, untracked_files := 0, is_detached := false,
              remote_status := { has_remote := false }, last_commit := none,
              stash_count := 0 } :=
  ⟨rfl, rfl, rfl,
    c6_amended c6wRun (fun _ => none) "" "" "" "" "" "" "" rfl rfl rfl rfl rfl rfl rfl⟩

/-- C7: the counting convention
`.trim().split(newline).length - 1` does report `0` on empty output, but
it does NOT equal the number of non-empty lines: one staged file
(`"file.txt"`) is counted as `0`, and in the full snapshot a repository
with exactly one staged file reports `staged_files = 0`. -/
theorem c7_count_off_by_one :
    fileCount "" = 0
    ∧ fileCount "file.txt" = 0
    ∧ specNonEmptyLineCount "file.txt" = 1
    ∧ fileCount "a\nb" = 1
    ∧ specNonEmptyLineCount "a\nb" = 2
    ∧ analyzeContext c7run (fun _ => none) =
        .ok { branch := "unknown", is_dirty := false, staged_files := 0,
              unstaged_files := 0, untracked_files := 0, is_detached := false,
              remote_status := { has_remote := true, ahead := some 0,
                                 behind := some 0, up_to_date := some true },
              last_commit := none, stash_count := 0 } :=
  ⟨rfl, rfl, rfl, rfl, rfl, rfl⟩

/-- C8: when the API key of the provider the model choice resolves to is
not configured (absent or empty), `generateCommand` returns the
non-throwing failure triple with `command = null` and never touches the
network oracle — and being a total function it throws nothing to its
caller. -/
theorem c8_no_key_no_network (engine : AIEngineKeys)
    (net : NetRequest → Except String (Option String))
    (jsonParse : String → Option AIResponse)
    (userInput : String) (context : ContextInfo) (modelChoice : String)
    (h : jsFalsyS (keyFor engine (resolveModel modelChoice).provider) = true) :
    (generateCommand engine net jsonParse userInput context modelChoice).1.command = none
    ∧ (generateCommand engine net jsonParse userInput context modelChoice).2 = false := by
  cases hp : (resolveModel modelChoice).provider with
  | gemini =>
    rw [hp] at h
    simp only [keyFor] at h
    simp [generateCommand, hp, generateWithGemini, h]
  | groq =>
    rw [hp] at h
    simp only [keyFor] at h
    simp [generateCommand, hp, generateWithGroq, h]

/-- C8 (witness): no keys configured, default model choice. -/
theorem c8_witness :
    jsFalsyS (keyFor { } (resolveModel "1").provider) = true
    ∧ (generateCommand { } noNet noJson "undo last commit" { } "1").1.command = none
    ∧ (generateCommand { } noNet noJson "undo last commit" { } "1").2 = false := by
  refine ⟨rfl, ?_, ?_⟩
  · exact (c8_no_key_no_network { } noNet noJson "undo last commit" { } "1" rfl).1
  · exact (c8_no_key_no_network { } noNet noJson "undo last commit" { } "1" rfl).2
